import Mathlib

/-!
# Verification of the AI-Driven Sports Insights Platform pipeline

A shallow embedding of the analytics pipeline of the
AI-Driven-Sports-Insights-Platform repository, together with proofs and
refutations of the specification's claims about it.

The repository splits into a React presentation layer (under
`frontend/src` and the unnamed page components) and a FastAPI backend
(`backend/app.py`) that holds the cleaning / transformation / training /
evaluation logic.  Only the presentation layer and the backend's README are
present in the source tree, so:

* the Cleaner, Transformer and Model Trainer are modelled from the
  specification (each such definition carries a doc comment starting with
  `Modelled from the spec:`);
* the page handlers (`startCleaning`, `handleStartTransformation`, the
  scraper handlers, `handleRunEvaluation`, `handleAnalysis`) are embedded
  directly from the React source, as state-transition functions over the
  component state, with the outcome of the backend request made an explicit
  argument.

Numeric values that are JavaScript numbers in the source are modelled as
rationals (`ℚ`).
-/

/-! ## Transformer data model -/

/-- Modelled from the spec: the per-match, per-entity performance record that
the Transformer's join of the match / player / delivery streams produces,
carrying the quantities the rolling aggregates of §4.3 are built from
(runs, balls faced, dismissal, win/loss) together with the match date. -/
structure MatchPerf where
  match_id : Nat
  player : String
  date : Nat
  runs : Nat
  balls : Nat
  dismissed : Bool
  won : Bool
  lost : Bool
deriving DecidableEq, Repr

/-- Modelled from the spec: the rolling aggregate maintained per player/team
(§4.3: total runs, balls faced, dismissals, wins, losses). -/
structure Agg where
  runs : Nat
  balls_faced : Nat
  dismissals : Nat
  wins : Nat
  losses : Nat
deriving DecidableEq, Repr

def Agg.init : Agg := ⟨0, 0, 0, 0, 0⟩

/-- Modelled from the spec: the match-by-match update of the rolling
aggregate (§4.3). -/
def aggStep (a : Agg) (m : MatchPerf) : Agg :=
  { runs := a.runs + m.runs
    balls_faced := a.balls_faced + m.balls
    dismissals := a.dismissals + (if m.dismissed then 1 else 0)
    wins := a.wins + (if m.won then 1 else 0)
    losses := a.losses + (if m.lost then 1 else 0) }

/-- Modelled from the spec: the rolling aggregate accumulated over a history
of matches, oldest first. -/
def aggOf (hist : List MatchPerf) : Agg := hist.foldl aggStep Agg.init

/-- Modelled from the spec: `strike_rate = 100 * runs / balls_faced`
(0 if `balls_faced = 0`). -/
def strikeRate (a : Agg) : ℚ :=
  if a.balls_faced = 0 then 0 else 100 * (a.runs : ℚ) / (a.balls_faced : ℚ)

/-- Modelled from the spec: `batting_average = runs / max(dismissals, 1)`. -/
def battingAverage (a : Agg) : ℚ := (a.runs : ℚ) / ((max a.dismissals 1 : Nat) : ℚ)

/-- Modelled from the spec: `win_ratio = wins / max(wins + losses, 1)`. -/
def winRatio (a : Agg) : ℚ := (a.wins : ℚ) / ((max (a.wins + a.losses) 1 : Nat) : ℚ)

/-- Weighted sum and total weight of a list taken most-recent first, the
weight halving at each step (decay 0.5). -/
def ewmaAux : List ℚ → ℚ × ℚ
  | [] => (0, 0)
  | x :: xs =>
    let p := ewmaAux xs
    (x + p.1 / 2, 1 + p.2 / 2)

/-- Per-match run totals of the last `n` matches of a history (oldest-first
input, most-recent-first output). -/
def windowRuns (n : Nat) (hist : List MatchPerf) : List ℚ :=
  (hist.reverse.take n).map (fun m => (m.runs : ℚ))

def avgQ (l : List ℚ) : ℚ := if l.isEmpty then 0 else l.sum / (l.length : ℚ)

def maxQ (l : List ℚ) : ℚ := l.foldl max (l.headD 0)

def minQ (l : List ℚ) : ℚ := l.foldl min (l.headD 0)

/-- Modelled from the spec: `form_index` is the exponentially-weighted moving
average of the last 5 per-match run totals, weight halving every match
(§4.3); 0 for an empty history. -/
def formIndex (hist : List MatchPerf) : ℚ :=
  let recent := windowRuns 5 hist
  if recent.isEmpty then 0 else (ewmaAux recent).1 / (ewmaAux recent).2

/-- Modelled from the spec: `momentum_score` is the difference between the
short-window (last 3) and long-window (last 10) form, min-max normalized to
`[0,1]` using the spread of the long window; 0 for an empty history or a
degenerate window (§4.3). -/
def momentumScore (hist : List MatchPerf) : ℚ :=
  if hist.isEmpty then 0
  else
    let shortW := windowRuns 3 hist
    let longW := windowRuns 10 hist
    let mn := minQ longW
    let mx := maxQ longW
    if mx = mn then 0
    else (avgQ shortW - avgQ longW + (mx - mn)) / (2 * (mx - mn))

/-- Modelled from the spec: the derived feature row of §3 / §4.3, plus the
`has_history` cold-start flag. -/
structure FeatureRow where
  strike_rate : ℚ
  batting_average : ℚ
  win_ratio : ℚ
  form_index : ℚ
  momentum_score : ℚ
  has_history : Bool
deriving DecidableEq, Repr

/-- Modelled from the spec: the features derived from an entity's prior-match
history (oldest first).  A player/team with no prior history gets all-zero
features, explicitly flagged with `has_history = false` (§4.3 edge case). -/
def featuresOf (hist : List MatchPerf) : FeatureRow :=
  if hist.isEmpty then ⟨0, 0, 0, 0, 0, false⟩
  else
    let a := aggOf hist
    ⟨strikeRate a, battingAverage a, winRatio a, formIndex hist, momentumScore hist, true⟩

/-- Insertion of a record into a date-sorted list, keeping ascending dates. -/
def insertByDate (m : MatchPerf) : List MatchPerf → List MatchPerf
  | [] => [m]
  | x :: xs => if m.date ≤ x.date then m :: x :: xs else x :: insertByDate m xs

/-- Modelled from the spec: sort matches by date ascending (§4.3). -/
def sortByDate : List MatchPerf → List MatchPerf
  | [] => []
  | x :: xs => insertByDate x (sortByDate xs)

/-- Modelled from the spec: the as-of history for a record — the same
player's records with a strictly earlier date, in chronological order
(§4.3: aggregates accumulated strictly before match N, never including
match N itself). -/
def histFor (l : List MatchPerf) (m : MatchPerf) : List MatchPerf :=
  sortByDate (l.filter (fun r => r.player == m.player && r.date < m.date))

/-- The feature row the Transformer attaches to record `m` of input `l`. -/
def featureFor (l : List MatchPerf) (m : MatchPerf) : FeatureRow :=
  featuresOf (histFor l m)

/-- Modelled from the spec: `transform` sorts the joined input by date
ascending and attaches to every record the features of its as-of history
(§4.3). -/
def transform (l : List MatchPerf) : List (MatchPerf × FeatureRow) :=
  (sortByDate l).map (fun r => (r, featureFor l r))

/-- The input restricted to matches not later than a given date (removal of
all future matches). -/
def keepNotAfter (l : List MatchPerf) (d : Nat) : List MatchPerf :=
  l.filter (fun r => r.date ≤ d)

/-- The feature values a feature table attaches to a given match record. -/
def rowsForMatch (t : List (MatchPerf × FeatureRow)) (m : MatchPerf) : List FeatureRow :=
  (t.filter (fun x => x.1 == m)).map Prod.snd

/-- Total runs of a history, by direct summation. -/
def totalRuns (hist : List MatchPerf) : Nat := (hist.map (·.runs)).sum

/-- Total balls faced of a history, by direct summation. -/
def totalBalls (hist : List MatchPerf) : Nat := (hist.map (·.balls)).sum

/-- Total dismissals of a history, by direct summation. -/
def totalDismissals (hist : List MatchPerf) : Nat :=
  (hist.map (fun m => if m.dismissed then 1 else 0)).sum

/-- Total wins of a history, by direct summation. -/
def totalWins (hist : List MatchPerf) : Nat :=
  (hist.map (fun m => if m.won then 1 else 0)).sum

/-- Total losses of a history, by direct summation. -/
def totalLosses (hist : List MatchPerf) : Nat :=
  (hist.map (fun m => if m.lost then 1 else 0)).sum

/-! ## Cleaner (modelled from the spec, §4.2) -/

/-- Modelled from the spec: a raw tabular row as the Cleaner sees it — the
required numeric columns of §4.2 (`runs_scored`, `over`, `ball`, nullable),
plus the optional categorical name columns. -/
structure RawRow where
  runs_scored : Option Int
  over : Option Int
  ball : Option Int
  player : String
  venue : String
deriving DecidableEq, Repr

/-- A canonical name-mapping table (§4.2), as an association list from a
name variant to its canonical form. -/
abbrev NameMapping := List (String × String)

/-- Canonicalisation of a single value: mapped values are replaced, unmapped
values are passed through unchanged (§4.2). -/
def canonOf (m : NameMapping) (s : String) : String := (m.lookup s).getD s

/-- Canonicalisation of the categorical columns of a row. -/
def applyCanon (m : NameMapping) (r : RawRow) : RawRow :=
  { r with player := canonOf m r.player, venue := canonOf m r.venue }

/-- Modelled from the spec: a row is kept only if every required numeric
column is non-null and non-negative (§4.2: dropped, not imputed). -/
def validRow (r : RawRow) : Bool :=
  match r.runs_scored, r.over, r.ball with
  | some rs, some o, some b => decide (0 ≤ rs) && decide (0 ≤ o) && decide (0 ≤ b)
  | _, _, _ => false

/-- Rows whose categorical values have no entry in the mapping table,
flagged in the report for manual review (§4.2). -/
def unmappedCount (m : NameMapping) (tbl : List RawRow) : Nat :=
  (tbl.filter (fun r => (m.lookup r.player).isNone || (m.lookup r.venue).isNone)).length

inductive CleanError
  | validationError
deriving DecidableEq, Repr

/-- Modelled from the spec: the cleaning report counters of §4.2
(`rows_before`, `rows_removed`, `rows_after` and the reasons histogram). -/
structure CleaningReport where
  rows_before : Nat
  rows_removed : Nat
  rows_after : Nat
  duplicate_removed : Nat
  null_required_removed : Nat
  unmapped_flagged : Nat
deriving DecidableEq, Repr

/-- Modelled from the spec: the row pipeline of `Cleaner.clean` —
name-standardisation, dropping of rows with null/negative required numeric
columns, and exact-duplicate removal (§4.2).  Names are canonicalised before
duplicate removal so that rows equal up to aliasing are recognised as exact
duplicates, which is what makes cleaning idempotent (§8). -/
def cleanCore (m : NameMapping) (tbl : List RawRow) : List RawRow :=
  ((tbl.map (applyCanon m)).filter validRow).dedup

/-- The report accompanying `cleanCore`'s output. -/
def reportOf (m : NameMapping) (tbl : List RawRow) : CleaningReport :=
  let mapped := tbl.map (applyCanon m)
  let valid := mapped.filter validRow
  let deduped := valid.dedup
  { rows_before := tbl.length
    rows_removed := tbl.length - deduped.length
    rows_after := deduped.length
    duplicate_removed := valid.length - deduped.length
    null_required_removed := mapped.length - valid.length
    unmapped_flagged := unmappedCount m tbl }

/-- Modelled from the spec: `Cleaner.clean` (§4.2).  Fails with
`ValidationError` when fewer than half of the rows survive cleaning
(default minimum fraction 50%). -/
def clean (m : NameMapping) (tbl : List RawRow) :
    Except CleanError (List RawRow × CleaningReport) :=
  if 2 * (cleanCore m tbl).length ≥ tbl.length then .ok (cleanCore m tbl, reportOf m tbl)
  else .error .validationError

/-! ## Model Trainer (modelled from the spec, §4.5) -/

inductive ModelKind
  | win
  | innings_score
  | player_performance
deriving DecidableEq, Repr

inductive TrainError
  | insufficientData
deriving DecidableEq, Repr

/-- Modelled from the spec: a trained model with its kind, fitted
parameters, feature schema and training timestamp (§3). -/
structure TrainedModel where
  model_kind : ModelKind
  params : List ℚ
  feature_schema : List String
  training_timestamp : Nat
deriving DecidableEq, Repr

/-- The configurable minimum number of historical matches (§4.5 default). -/
def defaultMinMatches : Nat := 20

/-- The ordered feature schema of §3's `FeatureRow`. -/
def featureSchema : List String :=
  ["strike_rate", "batting_average", "win_ratio", "form_index", "momentum_score"]

/-- Modelled from the spec: the chronological 80/20 split of §4.5 — train on
the earliest 80% of rows, validate on the most recent 20%. -/
def trainSplit (tbl : List (MatchPerf × FeatureRow)) :
    List (MatchPerf × FeatureRow) × List (MatchPerf × FeatureRow) :=
  (tbl.take (4 * tbl.length / 5), tbl.drop (4 * tbl.length / 5))

/-- Modelled from the spec: `Model Trainer.train` (§4.5).  Refuses with
`InsufficientDataError` when fewer than `min_matches` historical matches are
available; otherwise fits on the chronological training split and returns
the serialized model. -/
def train (min_matches : Nat) (kind : ModelKind) (tbl : List (MatchPerf × FeatureRow))
    (now : Nat) : Except TrainError TrainedModel :=
  if tbl.length < min_matches then .error .insufficientData
  else
    .ok { model_kind := kind
          params := [avgQ ((trainSplit tbl).1.map (·.2.strike_rate)),
                     avgQ ((trainSplit tbl).1.map (·.2.win_ratio))]
          feature_schema := featureSchema
          training_timestamp := now }

/-! ## Evaluation page (embedded from the source, part_006 `Evaluation`) -/

/-- The overall metrics held in `evaluationResults` state. -/
structure EvalMetrics where
  accuracy : ℚ
  «precision» : ℚ
  «recall» : ℚ
  f1Score : ℚ
deriving DecidableEq, Repr

/-- The initial `evaluationResults` state of the Evaluation component. -/
def initialEvaluationResults : EvalMetrics :=
  { accuracy := 942 / 10, «precision» := 928 / 10, «recall» := 895 / 10, f1Score := 911 / 10 }

/-- One draw of the four `Math.random()` calls of `handleRunEvaluation`,
each a number in `[0, 1)`. -/
structure RandDraw where
  r1 : ℚ
  r2 : ℚ
  r3 : ℚ
  r4 : ℚ
deriving DecidableEq, Repr

/-- The state of the Evaluation component. -/
structure EvalState where
  isEvaluating : Bool
  evaluationResults : EvalMetrics
deriving DecidableEq, Repr

/-- The metrics `handleRunEvaluation` stores: each is a fixed base constant
plus `Math.random() * 2` (source lines 27-32 of the Evaluation component). -/
def freshMetrics (r : RandDraw) : EvalMetrics :=
  { accuracy := 942 / 10 + 2 * r.r1
    «precision» := 928 / 10 + 2 * r.r2
    «recall» := 895 / 10 + 2 * r.r3
    f1Score := 911 / 10 + 2 * r.r4 }

/-- `handleRunEvaluation`: sets `isEvaluating`, sleeps, overwrites
`evaluationResults` with `freshMetrics` of the draw, and clears
`isEvaluating`.  No trained model, validation split or backend call is
consulted; the final state is shown. -/
def runEvaluation (s : EvalState) (r : RandDraw) : EvalState :=
  let s1 := { s with isEvaluating := true }
  { s1 with evaluationResults := freshMetrics r, isEvaluating := false }

/-! ## EDA page (embedded from the source, part_007 `EDA`) -/

/-- The state of the EDA component: the selected analysis type and the
`isAnalyzing` flag.  The component has no error field and no results field —
its displayed charts are static markup. -/
structure EDAState where
  selectedAnalysis : String
  isAnalyzing : Bool
deriving DecidableEq, Repr

/-- The possible outcomes of a page handler's backend request. -/
inductive RequestOutcome
  | rejected
  | nonOk
  | okResponse
deriving DecidableEq, Repr

/-- `handleAnalysis`: sets the selected type and `isAnalyzing`; a successful
response is only logged to the console, a non-ok response is ignored, and a
rejched request is caught and logged to the console; `finally` clears
`isAnalyzing`.  The resulting state is the same for every outcome. -/
def handleAnalysis (s : EDAState) (type : String) (o : RequestOutcome) : EDAState :=
  let s1 := { s with selectedAnalysis := type, isAnalyzing := true }
  match o with
  | .rejected => { s1 with isAnalyzing := false }
  | .nonOk => { s1 with isAnalyzing := false }
  | .okResponse => { s1 with isAnalyzing := false }

/-! ## Data Cleaning page (embedded from the source, part_003 `DataCleaning`) -/

/-- One row of the cleaned-sample table the cleaning endpoint returns. -/
structure SampleRow where
  player : String
  runs : Nat
  strikeRate : ℚ
deriving DecidableEq, Repr

/-- The payload of a successful cleaning request. -/
structure CleaningData where
  beforeRecords : Nat
  removed : Nat
  afterRecords : Nat
  sample : List SampleRow
deriving DecidableEq, Repr

/-- The state of the DataCleaning component. -/
structure CleaningState where
  status : String
  progress : Nat
  results : Option CleaningData
  error : String
deriving DecidableEq, Repr

/-- The outcome of the cleaning request. -/
inductive CleaningOutcome
  | rejected
  | nonOk
  | success (data : CleaningData)
deriving DecidableEq, Repr

/-- The error message `startCleaning` sets on failure. -/
def cleaningFailMsg : String := "Cleaning failed. Check backend."

/-- The start-of-run updates of `startCleaning`: status `cleaning`, progress
10, error cleared.  The source deliberately does not touch `results`
(source comment: keep the default data visible). -/
def startCleaningBegin (s : CleaningState) : CleaningState :=
  { s with status := "cleaning", progress := 10, error := "" }

/-- `startCleaning`: after the start-of-run updates, a rejected request or a
non-ok response is caught and sets status `error` with `cleaningFailMsg`
(progress still 10, the non-ok throw happens before `setProgress(60)`),
while a successful response stores the payload in `results` and finishes at
progress 100 with status `completed`. -/
def startCleaning (s : CleaningState) (o : CleaningOutcome) : CleaningState :=
  let s1 := startCleaningBegin s
  match o with
  | .rejected => { s1 with status := "error", error := cleaningFailMsg }
  | .nonOk => { s1 with status := "error", error := cleaningFailMsg }
  | .success d => { s1 with progress := 100, status := "completed", results := some d }

/-! ## Scraper page (embedded from the source, part_004 `Scraper`) -/

/-- The counters of the scraping payload displayed by the results panel. -/
structure ScrapedData where
  matches_scraped : Nat
  players_scraped : Nat
  records_scraped : Nat
deriving DecidableEq, Repr

/-- The state of the Scraper component. -/
structure ScraperState where
  isScraping : Bool
  status : String
  progress : Nat
  scrapedData : Option ScrapedData
  error : String
deriving DecidableEq, Repr

/-- The outcome of the scraping request. -/
inductive ScrapeOutcome
  | rejected
  | nonOk
  | success (d : ScrapedData)
deriving DecidableEq, Repr

/-- The error message `handleStartScraping` sets on failure. -/
def scrapingFailMsg : String := "Scraping failed. Check backend server."

/-- `handleStartScraping` of the Scraper component, up to the completion of
the run (the delayed reset to idle 2 seconds after success is outside the
run): status `scraping` and progress 5 at the start, error cleared; a
failure sets status `error` with `scrapingFailMsg` and stops scraping; a
success stores the payload, sets progress 100 and status `completed`. -/
def handleStartScraping (s : ScraperState) (o : ScrapeOutcome) : ScraperState :=
  let s1 := { s with isScraping := true, status := "scraping", progress := 5, error := "" }
  match o with
  | .rejected => { s1 with error := scrapingFailMsg, status := "error", isScraping := false }
  | .nonOk => { s1 with error := scrapingFailMsg, status := "error", isScraping := false }
  | .success d =>
      { s1 with scrapedData := some d, progress := 100, status := "completed" }

/-! ## Progress traces (embedded from the source, part_004) -/

/-- The successive values `handleStartTransformation` of the
DataTransformation component assigns to `progress`: 0 at the start, then
the loop `for (let i = 0; i <= 100; i += 10) setProgress(i)`. -/
def transformationProgressTrace : List Nat :=
  0 :: (List.range 11).map (fun i => i * 10)

/-- One tick of the Scraper's simulated-progress interval:
`prev < 90 ? prev + 10 : prev`. -/
def scraperTick (p : Nat) : Nat := if p < 90 then p + 10 else p

/-- The values produced by `n` ticks of the Scraper's progress interval
starting from `p`. -/
def scraperTicks : Nat → Nat → List Nat
  | 0, _ => []
  | n + 1, p => scraperTick p :: scraperTicks n (scraperTick p)

/-- The progress values reported during one scraping run: 5 at the start,
then `n` interval ticks, then 100 when the request succeeds (a failing run
ends without the final assignment). -/
def scraperProgressTrace (n : Nat) (success : Bool) : List Nat :=
  5 :: (scraperTicks n 5 ++ if success then [100] else [])

/-! ## Transformer lemmas -/

theorem insertByDate_perm (m : MatchPerf) (l : List MatchPerf) :
    (insertByDate m l).Perm (m :: l) := by
  induction l with
  | nil => exact List.Perm.refl _
  | cons x xs ih =>
    by_cases h : m.date ≤ x.date
    · simp [insertByDate, h]
    · simp only [insertByDate, if_neg h]
      exact (ih.cons x).trans (List.Perm.swap m x xs)

theorem sortByDate_perm (l : List MatchPerf) : (sortByDate l).Perm l := by
  induction l with
  | nil => exact List.Perm.refl _
  | cons x xs ih => exact (insertByDate_perm x (sortByDate xs)).trans (ih.cons x)

theorem filter_comp {α : Type} (p q : α → Bool) (l : List α) :
    (l.filter q).filter p = l.filter (fun a => p a && q a) := by
  induction l with
  | nil => rfl
  | cons x xs ih =>
    by_cases hq : q x
    · by_cases hp : p x <;> simp [List.filter_cons, hq, hp, ih]
    · simp [List.filter_cons, hq, ih]

theorem histFor_keepNotAfter (l : List MatchPerf) (m : MatchPerf) :
    histFor (keepNotAfter l m.date) m = histFor l m := by
  unfold histFor keepNotAfter
  rw [filter_comp]
  congr 1
  apply List.filter_congr
  intro a _
  by_cases hp : (a.player == m.player && decide (a.date < m.date)) = true
  · have hd : a.date < m.date := of_decide_eq_true ((Bool.and_eq_true _ _).mp hp).2
    simp [hp, Nat.le_of_lt hd]
  · simp [Bool.eq_false_iff.mpr hp]

theorem filter_fst_map (g : MatchPerf → FeatureRow) (m : MatchPerf) (L : List MatchPerf) :
    (L.map (fun r => (r, g r))).filter (fun x => x.1 == m) =
      (L.filter (fun r => r == m)).map (fun r => (r, g r)) := by
  induction L with
  | nil => rfl
  | cons x xs ih =>
    by_cases h : (x == m) <;> simp [List.filter_cons, h, ih]

theorem rowsForMatch_transform (X : List MatchPerf) (m : MatchPerf) :
    rowsForMatch (transform X) m = List.replicate (X.count m) (featureFor X m) := by
  unfold rowsForMatch transform
  rw [filter_fst_map (featureFor X) m (sortByDate X), List.map_map]
  rw [List.filter_beq, (sortByDate_perm X).count_eq, List.map_replicate]
  rfl

/-- C1: for every feature table produced by the Transformer, the feature
values attached to a match record are computed only from matches with a
strictly earlier date — running `transform` on the input from which all
matches later than that record have been removed yields exactly the same
feature values for it (no look-ahead leakage). -/
theorem transformer_no_lookahead (l : List MatchPerf) (m : MatchPerf) :
    rowsForMatch (transform (keepNotAfter l m.date)) m = rowsForMatch (transform l) m := by
  rw [rowsForMatch_transform, rowsForMatch_transform, featureFor, featureFor,
    histFor_keepNotAfter]
  congr 1
  unfold keepNotAfter
  exact List.count_filter (by simp)

/-! ## Rolling-aggregate lemmas -/

theorem foldl_aggStep_runs (hist : List MatchPerf) :
    ∀ a : Agg, (hist.foldl aggStep a).runs = a.runs + totalRuns hist := by
  induction hist with
  | nil => intro a; simp [totalRuns]
  | cons x xs ih =>
    intro a
    simp only [List.foldl_cons, ih, totalRuns, List.map_cons, List.sum_cons]
    simp [aggStep]
    omega

theorem foldl_aggStep_balls (hist : List MatchPerf) :
    ∀ a : Agg, (hist.foldl aggStep a).balls_faced = a.balls_faced + totalBalls hist := by
  induction hist with
  | nil => intro a; simp [totalBalls]
  | cons x xs ih =>
    intro a
    simp only [List.foldl_cons, ih, totalBalls, List.map_cons, List.sum_cons]
    simp [aggStep]
    omega

theorem foldl_aggStep_dismissals (hist : List MatchPerf) :
    ∀ a : Agg, (hist.foldl aggStep a).dismissals = a.dismissals + totalDismissals hist := by
  induction hist with
  | nil => intro a; simp [totalDismissals]
  | cons x xs ih =>
    intro a
    simp only [List.foldl_cons, ih, totalDismissals, List.map_cons, List.sum_cons]
    simp [aggStep]
    omega

theorem foldl_aggStep_wins (hist : List MatchPerf) :
    ∀ a : Agg, (hist.foldl aggStep a).wins = a.wins + totalWins hist := by
  induction hist with
  | nil => intro a; simp [totalWins]
  | cons x xs ih =>
    intro a
    simp only [List.foldl_cons, ih, totalWins, List.map_cons, List.sum_cons]
    simp [aggStep]
    omega

theorem foldl_aggStep_losses (hist : List MatchPerf) :
    ∀ a : Agg, (hist.foldl aggStep a).losses = a.losses + totalLosses hist := by
  induction hist with
  | nil => intro a; simp [totalLosses]
  | cons x xs ih =>
    intro a
    simp only [List.foldl_cons, ih, totalLosses, List.map_cons, List.sum_cons]
    simp [aggStep]
    omega

theorem aggOf_runs (hist : List MatchPerf) : (aggOf hist).runs = totalRuns hist := by
  unfold aggOf; rw [foldl_aggStep_runs]; simp [Agg.init]

theorem aggOf_balls (hist : List MatchPerf) : (aggOf hist).balls_faced = totalBalls hist := by
  unfold aggOf; rw [foldl_aggStep_balls]; simp [Agg.init]

theorem aggOf_dismissals (hist : List MatchPerf) :
    (aggOf hist).dismissals = totalDismissals hist := by
  unfold aggOf; rw [foldl_aggStep_dismissals]; simp [Agg.init]

theorem aggOf_wins (hist : List MatchPerf) : (aggOf hist).wins = totalWins hist := by
  unfold aggOf; rw [foldl_aggStep_wins]; simp [Agg.init]

theorem aggOf_losses (hist : List MatchPerf) : (aggOf hist).losses = totalLosses hist := by
  unfold aggOf; rw [foldl_aggStep_losses]; simp [Agg.init]

/-- C2: the rolling-aggregate features the Transformer derives satisfy their
defining equations over the accumulated totals of the history:
`strike_rate = 100 * runs / balls_faced` with `strike_rate = 0` when
`balls_faced = 0`; `batting_average = runs / max(dismissals, 1)`;
`win_ratio = wins / max(wins + losses, 1)`. -/
theorem transformer_feature_formulas (hist : List MatchPerf) :
    (featuresOf hist).strike_rate =
      (if totalBalls hist = 0 then 0
       else 100 * (totalRuns hist : ℚ) / (totalBalls hist : ℚ)) ∧
    (featuresOf hist).batting_average =
      (totalRuns hist : ℚ) / ((max (totalDismissals hist) 1 : Nat) : ℚ) ∧
    (featuresOf hist).win_ratio =
      (totalWins hist : ℚ) / ((max (totalWins hist + totalLosses hist) 1 : Nat) : ℚ) := by
  cases hist with
  | nil =>
    refine ⟨?_, ?_, ?_⟩ <;>
      norm_num [featuresOf, totalRuns, totalBalls, totalDismissals, totalWins, totalLosses]
  | cons x xs =>
    refine ⟨?_, ?_, ?_⟩ <;>
      simp [featuresOf, strikeRate, battingAverage, winRatio,
        aggOf_runs, aggOf_balls, aggOf_dismissals, aggOf_wins, aggOf_losses]

/-- C3: every row of the Transformer's output flagged `has_history = false`
has every derived feature exactly 0. -/
theorem cold_start_features_zero (l : List MatchPerf) (x : MatchPerf × FeatureRow)
    (hx : x ∈ transform l) (h : x.2.has_history = false) :
    x.2.strike_rate = 0 ∧ x.2.batting_average = 0 ∧ x.2.win_ratio = 0 ∧
      x.2.form_index = 0 ∧ x.2.momentum_score = 0 := by
  unfold transform at hx
  obtain ⟨r, hr, rfl⟩ := List.mem_map.mp hx
  by_cases he : (histFor l r).isEmpty
  · simp [featureFor, featuresOf, he]
  · exfalso
    have : (featureFor l r).has_history = true := by simp [featureFor, featuresOf, he]
    rw [h] at this
    exact Bool.false_ne_true this

/-- A concrete single-match record used as a witness input. -/
def mp0 : MatchPerf := ⟨0, "p", 0, 10, 5, false, true, false⟩

/-- Witness for C3: on the singleton input `[mp0]` the Transformer emits a
cold-start row, and its derived features are all 0. -/
theorem cold_start_features_zero_witness :
    (mp0, featuresOf []) ∈ transform [mp0] ∧
      ((featuresOf ([] : List MatchPerf)).strike_rate = 0 ∧
        (featuresOf ([] : List MatchPerf)).batting_average = 0 ∧
        (featuresOf ([] : List MatchPerf)).win_ratio = 0 ∧
        (featuresOf ([] : List MatchPerf)).form_index = 0 ∧
        (featuresOf ([] : List MatchPerf)).momentum_score = 0) := by
  have hmem : (mp0, featuresOf []) ∈ transform [mp0] := by
    show (mp0, featuresOf []) ∈ [(mp0, featuresOf [])]
    exact List.mem_singleton.mpr rfl
  exact ⟨hmem, cold_start_features_zero [mp0] (mp0, featuresOf []) hmem rfl⟩

/-- C4: with fewer than `min_matches` historical matches (boundary case
`min_matches - 1`) training raises `InsufficientDataError`, and with exactly
`min_matches` it succeeds and returns a `TrainedModel`; the configurable
minimum defaults to 20. -/
theorem train_min_matches_boundary (mm : Nat) (kind : ModelKind)
    (tbl : List (MatchPerf × FeatureRow)) (now : Nat) (hmm : 0 < mm) :
    defaultMinMatches = 20 ∧
    (tbl.length = mm - 1 → train mm kind tbl now = .error .insufficientData) ∧
    (tbl.length = mm → ∃ model : TrainedModel, train mm kind tbl now = .ok model) := by
  refine ⟨rfl, ?_, ?_⟩
  · intro hlen
    unfold train
    rw [if_pos (by omega)]
  · intro hlen
    unfold train
    rw [if_neg (by omega)]
    exact ⟨_, rfl⟩

/-- Concrete feature table with 19 rows. -/
def tbl19 : List (MatchPerf × FeatureRow) := List.replicate 19 (mp0, featuresOf [])

/-- Concrete feature table with 20 rows. -/
def tbl20 : List (MatchPerf × FeatureRow) := List.replicate 20 (mp0, featuresOf [])

/-- Witness for C4 at the default minimum of 20: 19 rows are refused, 20
rows succeed. -/
theorem train_min_matches_boundary_witness :
    (0 < defaultMinMatches ∧ tbl19.length = defaultMinMatches - 1 ∧
      tbl20.length = defaultMinMatches) ∧
    train defaultMinMatches .win tbl19 0 = .error .insufficientData ∧
    (∃ model : TrainedModel, train defaultMinMatches .win tbl20 0 = .ok model) := by
  have h19 : tbl19.length = defaultMinMatches - 1 := by
    simp [tbl19, defaultMinMatches]
  have h20 : tbl20.length = defaultMinMatches := by
    simp [tbl20, defaultMinMatches]
  exact ⟨⟨by decide, h19, h20⟩,
    (train_min_matches_boundary defaultMinMatches .win tbl19 0 (by decide)).2.1 h19,
    (train_min_matches_boundary defaultMinMatches .win tbl20 0 (by decide)).2.2 h20⟩

/-! ## Cleaner lemmas -/

theorem map_eq_self_of_mem {α : Type} {l : List α} {f : α → α} (h : ∀ x ∈ l, f x = x) :
    l.map f = l := by
  induction l with
  | nil => rfl
  | cons x xs ih =>
    simp only [List.map_cons, h x (List.mem_cons_self x xs),
      ih (fun y hy => h y (List.mem_cons_of_mem x hy))]

theorem applyCanon_idem (m : NameMapping)
    (hm : ∀ s, canonOf m (canonOf m s) = canonOf m s) (r : RawRow) :
    applyCanon m (applyCanon m r) = applyCanon m r := by
  simp [applyCanon, hm]

theorem cleanCore_fixed (m : NameMapping)
    (hm : ∀ s, canonOf m (canonOf m s) = canonOf m s) (tbl : List RawRow) :
    cleanCore m (cleanCore m tbl) = cleanCore m tbl := by
  have hsub : ∀ x ∈ cleanCore m tbl, x ∈ (tbl.map (applyCanon m)).filter validRow :=
    fun x hx => List.mem_dedup.mp hx
  have hmap : (cleanCore m tbl).map (applyCanon m) = cleanCore m tbl := by
    apply map_eq_self_of_mem
    intro x hx
    obtain ⟨y, _, rfl⟩ := List.mem_map.mp (List.mem_of_mem_filter (hsub x hx))
    exact applyCanon_idem m hm y
  have hfilter : (cleanCore m tbl).filter validRow = cleanCore m tbl :=
    List.filter_eq_self.mpr (fun x hx => List.of_mem_filter (hsub x hx))
  show (((cleanCore m tbl).map (applyCanon m)).filter validRow).dedup = cleanCore m tbl
  rw [hmap, hfilter]
  exact List.Nodup.dedup (List.nodup_dedup _)

/-- C5: `Cleaner.clean` is idempotent — cleaning the output of a successful
cleaning run returns it unchanged and reports `rows_removed = 0`
(for any canonical name mapping, i.e. one that is idempotent on values). -/
theorem cleaner_idempotent (m : NameMapping) (tbl out : List RawRow) (rep : CleaningReport)
    (hm : ∀ s, canonOf m (canonOf m s) = canonOf m s)
    (h : clean m tbl = .ok (out, rep)) :
    ∃ rep2 : CleaningReport, clean m out = .ok (out, rep2) ∧ rep2.rows_removed = 0 := by
  have hout : out = cleanCore m tbl := by
    unfold clean at h
    by_cases hc : 2 * (cleanCore m tbl).length ≥ tbl.length
    · rw [if_pos hc] at h
      simp only [Except.ok.injEq, Prod.mk.injEq] at h
      exact h.1.symm
    · rw [if_neg hc] at h
      exact absurd h (by simp)
  have hfix : cleanCore m out = out := by
    rw [hout]
    exact cleanCore_fixed m hm tbl
  refine ⟨reportOf m out, ?_, ?_⟩
  · unfold clean
    rw [if_pos (by rw [hfix]; omega), hfix]
  · show (reportOf m out).rows_removed = 0
    have : (reportOf m out).rows_removed = out.length - (cleanCore m out).length := rfl
    rw [this, hfix, Nat.sub_self]

/-- A concrete already-valid raw row used as a witness input. -/
def rawRow0 : RawRow := ⟨some 4, some 1, some 1, "Virat", "Eden"⟩

/-- Witness for C5: cleaning the singleton table `[rawRow0]` with the empty
(trivially canonical) name mapping succeeds, and cleaning its output again
returns it unchanged with `rows_removed = 0`. -/
theorem cleaner_idempotent_witness :
    ∃ rep2 : CleaningReport,
      clean [] [rawRow0] = .ok ([rawRow0], rep2) ∧ rep2.rows_removed = 0 :=
  cleaner_idempotent [] [rawRow0] [rawRow0] ⟨1, 0, 1, 0, 0, 1⟩ (fun _ => rfl) rfl

/-! ## Evaluation, error surfacing, progress and frame effects -/

/-- Counterexample to C6: two evaluation runs from the identical component
state (and with no trained model or validation split consulted at all)
report different metrics, so the reported metrics are not a function of the
model and the validation data. -/
theorem evaluation_metrics_not_function_of_model :
    (runEvaluation ⟨false, initialEvaluationResults⟩ ⟨0, 0, 0, 0⟩).evaluationResults ≠
      (runEvaluation ⟨false, initialEvaluationResults⟩
        ⟨1/2, 1/2, 1/2, 1/2⟩).evaluationResults := by
  intro h
  have h1 := congrArg EvalMetrics.accuracy h
  simp only [runEvaluation, freshMetrics] at h1
  norm_num at h1

/-- C6 amended: the metrics reported by `handleRunEvaluation` are
independent of the prior component state (hence of any trained model or
validation data) and are determined by the four random draws alone, as the
fixed base constants plus twice the draw. -/
theorem evaluation_metrics_determined_by_draw (s1 s2 : EvalState) (r : RandDraw) :
    (runEvaluation s1 r).evaluationResults = (runEvaluation s2 r).evaluationResults ∧
    (runEvaluation s1 r).evaluationResults.accuracy = 942 / 10 + 2 * r.r1 ∧
    (runEvaluation s1 r).evaluationResults.«precision» = 928 / 10 + 2 * r.r2 ∧
    (runEvaluation s1 r).evaluationResults.«recall» = 895 / 10 + 2 * r.r3 ∧
    (runEvaluation s1 r).evaluationResults.f1Score = 911 / 10 + 2 * r.r4 :=
  ⟨rfl, rfl, rfl, rfl, rfl⟩

/-- C9: for draws in `[0,1)` the reported overall metrics are the fixed
base constants plus a random offset in `[0,2)`: accuracy lies in
`[94.2, 96.2)`, precision in `[92.8, 94.8)`, recall in `[89.5, 91.5)` and
f1Score in `[91.1, 93.1)`, for any prior component state. -/
theorem evaluation_metric_ranges (s : EvalState) (r : RandDraw)
    (h1 : 0 ≤ r.r1) (h1' : r.r1 < 1) (h2 : 0 ≤ r.r2) (h2' : r.r2 < 1)
    (h3 : 0 ≤ r.r3) (h3' : r.r3 < 1) (h4 : 0 ≤ r.r4) (h4' : r.r4 < 1) :
    (942/10 ≤ (runEvaluation s r).evaluationResults.accuracy ∧
      (runEvaluation s r).evaluationResults.accuracy < 962/10) ∧
    (928/10 ≤ (runEvaluation s r).evaluationResults.«precision» ∧
      (runEvaluation s r).evaluationResults.«precision» < 948/10) ∧
    (895/10 ≤ (runEvaluation s r).evaluationResults.«recall» ∧
      (runEvaluation s r).evaluationResults.«recall» < 915/10) ∧
    (911/10 ≤ (runEvaluation s r).evaluationResults.f1Score ∧
      (runEvaluation s r).evaluationResults.f1Score < 931/10) := by
  simp only [runEvaluation, freshMetrics]
  refine ⟨⟨?_, ?_⟩, ⟨?_, ?_⟩, ⟨?_, ?_⟩, ⟨?_, ?_⟩⟩ <;> linarith

/-- Witness for C9: the zero draw is in range and the reported metrics obey
the stated bounds. -/
theorem evaluation_metric_ranges_witness :
    ((0:ℚ) ≤ 0 ∧ (0:ℚ) < 1) ∧
    ((942/10 ≤ (runEvaluation ⟨false, initialEvaluationResults⟩
        ⟨0, 0, 0, 0⟩).evaluationResults.accuracy ∧
      (runEvaluation ⟨false, initialEvaluationResults⟩
        ⟨0, 0, 0, 0⟩).evaluationResults.accuracy < 962/10) ∧
    (928/10 ≤ (runEvaluation ⟨false, initialEvaluationResults⟩
        ⟨0, 0, 0, 0⟩).evaluationResults.«precision» ∧
      (runEvaluation ⟨false, initialEvaluationResults⟩
        ⟨0, 0, 0, 0⟩).evaluationResults.«precision» < 948/10) ∧
    (895/10 ≤ (runEvaluation ⟨false, initialEvaluationResults⟩
        ⟨0, 0, 0, 0⟩).evaluationResults.«recall» ∧
      (runEvaluation ⟨false, initialEvaluationResults⟩
        ⟨0, 0, 0, 0⟩).evaluationResults.«recall» < 915/10) ∧
    (911/10 ≤ (runEvaluation ⟨false, initialEvaluationResults⟩
        ⟨0, 0, 0, 0⟩).evaluationResults.f1Score ∧
      (runEvaluation ⟨false, initialEvaluationResults⟩
        ⟨0, 0, 0, 0⟩).evaluationResults.f1Score < 931/10)) :=
  ⟨⟨le_refl 0, zero_lt_one⟩,
    evaluation_metric_ranges ⟨false, initialEvaluationResults⟩ ⟨0, 0, 0, 0⟩
      (le_refl 0) zero_lt_one (le_refl 0) zero_lt_one
      (le_refl 0) zero_lt_one (le_refl 0) zero_lt_one⟩

/-- Counterexample to C7: a failing analysis request leaves the EDA
component in exactly the state a successful one does — the error is
recovered locally (console log only) and no user-visible failure is
produced. -/
theorem eda_failure_invisible :
    handleAnalysis ⟨"overview", false⟩ "toss" .rejected =
      handleAnalysis ⟨"overview", false⟩ "toss" .okResponse := rfl

/-- C7 amended: the scraping and cleaning stage handlers surface request
failures as a user-visible error (status `error` and a non-empty error
message), but the EDA analysis handler recovers every failure locally: its
final state is the same for every request outcome and carries no error
indication. -/
theorem stage_error_surfacing (sc : CleaningState) (ss : ScraperState) (ed : EDAState)
    (t : String) :
    ((startCleaning sc .rejected).status = "error" ∧
      (startCleaning sc .rejected).error ≠ "") ∧
    ((startCleaning sc .nonOk).status = "error" ∧
      (startCleaning sc .nonOk).error ≠ "") ∧
    ((handleStartScraping ss .rejected).status = "error" ∧
      (handleStartScraping ss .rejected).error ≠ "") ∧
    ((handleStartScraping ss .nonOk).status = "error" ∧
      (handleStartScraping ss .nonOk).error ≠ "") ∧
    (∀ o : RequestOutcome, handleAnalysis ed t o = ⟨t, false⟩) := by
  refine ⟨⟨rfl, by show cleaningFailMsg ≠ ""; decide⟩,
    ⟨rfl, by show cleaningFailMsg ≠ ""; decide⟩,
    ⟨rfl, by show scrapingFailMsg ≠ ""; decide⟩,
    ⟨rfl, by show scrapingFailMsg ≠ ""; decide⟩, ?_⟩
  intro o
  cases o <;> rfl

/-- C10: a failing cleaning run changes only the status, progress and error
fields — the previously displayed `results` are left untouched, and the
start-of-run updates never clear `results` either. -/
theorem cleaning_failure_preserves_results (s : CleaningState) :
    startCleaning s .rejected =
      { s with status := "error", progress := 10, error := cleaningFailMsg } ∧
    startCleaning s .nonOk =
      { s with status := "error", progress := 10, error := cleaningFailMsg } ∧
    (startCleaningBegin s).results = s.results ∧
    (startCleaning s .rejected).results = s.results ∧
    (startCleaning s .nonOk).results = s.results :=
  ⟨rfl, rfl, rfl, rfl, rfl⟩

/-! ## Progress monotonicity -/

theorem scraperTick_le (p : Nat) : p ≤ scraperTick p := by
  unfold scraperTick; split <;> omega

theorem scraperTick_le_100 (p : Nat) (h : p ≤ 100) : scraperTick p ≤ 100 := by
  unfold scraperTick; split <;> omega

theorem chain_scraperTicks_append (n : Nat) :
    ∀ p : Nat, p ≤ 100 → List.Chain' (· ≤ ·) (p :: (scraperTicks n p ++ [100])) := by
  induction n with
  | zero =>
    intro p hp
    simpa [scraperTicks] using hp
  | succ k ih =>
    intro p hp
    simp only [scraperTicks, List.cons_append]
    exact List.chain'_cons.mpr ⟨scraperTick_le p, ih (scraperTick p) (scraperTick_le_100 p hp)⟩

theorem chain_scraperTicks (n : Nat) :
    ∀ p : Nat, List.Chain' (· ≤ ·) (p :: scraperTicks n p) := by
  induction n with
  | zero => intro p; simp [scraperTicks]
  | succ k ih =>
    intro p
    simp only [scraperTicks]
    exact List.chain'_cons.mpr ⟨scraperTick_le p, ih (scraperTick p)⟩

/-- C8: within a single run, the reported progress percentage is
monotonically non-decreasing: this holds for the transformation handler's
trace and for every scraping run (any number of interval ticks, completing
or failing). -/
theorem progress_monotone :
    List.Chain' (· ≤ ·) transformationProgressTrace ∧
    ∀ (n : Nat) (success : Bool), List.Chain' (· ≤ ·) (scraperProgressTrace n success) := by
  constructor
  · have h : transformationProgressTrace =
        [0, 0, 10, 20, 30, 40, 50, 60, 70, 80, 90, 100] := rfl
    rw [h]
    norm_num [List.chain'_cons]
  · intro n success
    cases success
    · show List.Chain' (· ≤ ·) (5 :: (scraperTicks n 5 ++ []))
      rw [List.append_nil]
      exact chain_scraperTicks n 5
    · show List.Chain' (· ≤ ·) (5 :: (scraperTicks n 5 ++ [100]))
      exact chain_scraperTicks_append n 5 (by omega)
